import Mathlib

/-!
Verification development for the `web_search_sdk` scraping toolkit.

Each Python function relevant to the specification is shallowly embedded
as an executable Lean definition.  External effects (HTTP responses,
Selenium/Playwright behaviour, the filesystem) are modelled as explicit
parameters: an HTTP attempt sequence is a function `Nat → Except PyErr
String` giving the outcome of each attempt, the filesystem is a partial
map `String → Option String`, and so on.  Sleep durations are recorded
in integer milliseconds (the Python code sleeps fractional seconds such
as `0.5 * 2**attempt`; scaling by 1000 makes every duration that the
code can produce an exact natural number).
-/

namespace WebSearchSdk

/-- Python exception values, abstracted to the kinds the embedding needs. -/
inductive PyErr
  | fetchErr
  | typeError
  | nameError
  | otherErr
deriving DecidableEq, Repr

/-! ## Token extraction (`utils/text.py`, `_tokenise` in the scrapers)

`TOKEN_RE = re.compile(r"[A-Za-z]{2,}")`; `tokenise` lowercases the text
and returns the maximal runs of ASCII letters of length at least 2. -/

/-- A finished run of letters becomes a token when it has length ≥ 2. -/
def emitRun (run : List Char) : List String :=
  if 2 ≤ run.length then [String.mk run] else []

/-- Maximal-run scanner for `re.findall(r"[A-Za-z]{2,}", text)` over an
already lowercased character list; `run` accumulates the letters of the
current (reversed-free, in-order) run. -/
def tokenRunsGo (run : List Char) : List Char → List String
  | [] => emitRun run
  | c :: cs =>
    if c.isAlpha then tokenRunsGo (run ++ [c]) cs
    else emitRun run ++ tokenRunsGo [] cs

def tokenRuns (cs : List Char) : List String :=
  tokenRunsGo [] cs

/-- `tokenise(text)`: lowercase word tokens of `text` (utils/text.py and the
per-scraper `_tokenise` helpers, which are identical). -/
def tokenise (text : String) : List String :=
  tokenRuns (text.toList.map Char.toLower)

/-- Adjacent-word bigrams, joined by a space
(`[f"{a} {b}" for a, b in zip(toks, toks[1:])]`). -/
def bigrams : List String → List String
  | a :: b :: rest => (a ++ " " ++ b) :: bigrams (b :: rest)
  | _ => []

/-- `_tokenise_and_bigrams(text)` from google_web.py / duckduckgo_web.py:
unigrams followed by the adjacent bigrams. -/
def tokeniseAndBigrams (text : String) : List String :=
  let toks := tokenise text
  toks ++ bigrams toks

/-- `remove_stopwords(tokens)`: drop every token present in the stop-word
set.  The module-level `_STOPWORDS` set is modelled as the parameter `sw`. -/
def removeStopwords (sw : List String) (toks : List String) : List String :=
  toks.filter (fun t => !(sw.contains t))

/-! ## `collections.Counter` and `most_common`

`Counter(tokens)` keeps one entry per distinct token, keyed in first
occurrence order, mapping it to its multiplicity; `most_common(n)` sorts
the entries by descending count - the sort is stable, so ties keep the
insertion (= first occurrence) order - and takes the first `n`. -/

/-- Distinct elements of a list in first-occurrence order (the key order
of `collections.Counter`); `seen` holds the elements already emitted. -/
def dedupFirstGo (seen : List String) : List String → List String
  | [] => []
  | x :: xs =>
    if x ∈ seen then dedupFirstGo seen xs
    else x :: dedupFirstGo (x :: seen) xs

def dedupFirst (l : List String) : List String :=
  dedupFirstGo [] l

/-- Stable insertion (descending by `key`): the new element goes before
the first element whose key is less than or equal to its own, so elements
inserted later (which sit earlier in the original list) precede equal
keys — exactly the stability of Python's `sorted(..., reverse=True)`. -/
def insDesc (key : String → Nat) (x : String) : List String → List String
  | [] => [x]
  | h :: t => if key h ≤ key x then x :: h :: t else h :: insDesc key x t

/-- Stable descending sort by `key` (model of the stable descending sort
inside `Counter.most_common`). -/
def sortDesc (key : String → Nat) (l : List String) : List String :=
  l.foldr (insDesc key) []

/-- `Counter(toks).most_common()` as a token list: distinct tokens of
`toks`, ordered by descending multiplicity, ties in first-occurrence
order. -/
def rankAll (toks : List String) : List String :=
  sortDesc (fun t => toks.count t) (dedupFirst toks)

/-- `most_common(tokens, n)` from utils/text.py: stop-word filter, then
the `n` most common remaining tokens. -/
def mostCommon (sw : List String) (toks : List String) (n : Nat) : List String :=
  (rankAll (removeStopwords sw toks)).take n

/-- `a` is ranked before `b`: strictly larger count, or equal count and
earlier first occurrence. -/
def rankedBefore (cnt : String → Nat) (D : List String) (a b : String) : Prop :=
  cnt b < cnt a ∨ (cnt a = cnt b ∧ D.indexOf a < D.indexOf b)

instance (cnt : String → Nat) (D : List String) (a b : String) :
    Decidable (rankedBefore cnt D a b) := by
  unfold rankedBefore
  exact inferInstance

/-! ## Per-source parsers

BeautifulSoup extraction is the external collaborator the spec excludes;
the extracted text (joined titles and snippets for DuckDuckGo, the
`mw-content-text` text for Wikipedia) enters the embedding as a string
parameter, and everything from tokenisation onward is embedded. -/

/-- The accumulation loop of duckduckgo_web.py `_parse_html` (lines
141-147): append unseen tokens, breaking only after an append makes the
length equal to `top_n`.  Note the length test runs after the append. -/
def ddgLoop (topN : Nat) : List String → List String → List String
  | [], acc => acc
  | tok :: rest, acc =>
    let acc2 := if tok ∈ acc then acc else acc ++ [tok]
    if acc2.length = topN then acc2 else ddgLoop topN rest acc2

/-- duckduckgo_web.py `_parse_html` from the combined titles-and-snippets
text onward: tokenise with bigrams, drop stop-words, rank by
`Counter.most_common()`, then run the accumulation loop. -/
def ddgParseTokens (sw : List String) (combined : String) (topN : Nat) : List String :=
  let tokens := removeStopwords sw (tokeniseAndBigrams combined)
  ddgLoop topN (rankAll tokens) []

/-- wikipedia.py `_parse_html` (and news.py `_parse_rss`) from the token
list onward: stop-word filter, fall back to the unfiltered tokens when
the filter removes everything, then the `top_n` most common. -/
def wikipediaRankTokens (sw : List String) (tokens : List String) (topN : Nat) :
    List String :=
  let filtered := removeStopwords sw tokens
  let filtered2 := if filtered = [] then tokens else filtered
  (rankAll filtered2).take topN

/-- wikipedia.py `_parse_html` from the extracted content text onward. -/
def wikipediaParseTokens (sw : List String) (contentText : String) (topN : Nat) :
    List String :=
  wikipediaRankTokens sw (tokenise contentText) topN

/-! ## Retry/backoff fetchers

Every fetch loop in the repository has the shape

    for attempt in range(retries + 1):
        try: ... return resp.text
        except Exception as exc:
            if attempt >= retries: raise exc
            await asyncio.sleep(<schedule(attempt)>)

The outcome of each HTTP attempt is a parameter `outcome : Nat → Except
PyErr String`.  The only difference between the loops is the sleep
schedule: utils/http.py `fetch_text` sleeps `0.5 * 2**attempt` seconds
(exponential), google_web.py/duckduckgo_web.py `_fetch_html` sleep
`0.3 * (attempt+1)` seconds, wikipedia.py `_fetch_html` and news.py
`_fetch_rss` sleep `0.5 * (attempt+1)` seconds (both linear). -/

deriving instance DecidableEq for Except

/-- Observable trace of one fetch call: the returned value or the
propagated exception, the backoff sleeps (milliseconds, in order), and
the number of HTTP attempts issued. -/
structure FetchTrace where
  result : Except PyErr String
  sleeps : List Nat
  attempts : Nat
deriving DecidableEq, Repr

/-- utils/http.py `fetch_text` retry loop (lines 130-170).  `left` is the
number of attempts still allowed after the current one (initially
`retries`), `a` the index of the current attempt; the sleep before the
next attempt is `0.5 * 2**attempt` seconds, i.e. `500 * 2^a` ms. -/
def fetchTextGo (outcome : Nat → Except PyErr String) : Nat → Nat → FetchTrace
  | 0, a =>
    match outcome a with
    | .ok s => ⟨.ok s, [], 1⟩
    | .error e => ⟨.error e, [], 1⟩
  | left + 1, a =>
    match outcome a with
    | .ok s => ⟨.ok s, [], 1⟩
    | .error _ =>
      let t := fetchTextGo outcome left (a + 1)
      ⟨t.result, 500 * 2 ^ a :: t.sleeps, t.attempts + 1⟩

/-- google_web.py and duckduckgo_web.py `_fetch_html` retry loop: sleep
`0.3 * (attempt+1)` seconds, i.e. `300 * (a+1)` ms. -/
def googleFetchGo (outcome : Nat → Except PyErr String) : Nat → Nat → FetchTrace
  | 0, a =>
    match outcome a with
    | .ok s => ⟨.ok s, [], 1⟩
    | .error e => ⟨.error e, [], 1⟩
  | left + 1, a =>
    match outcome a with
    | .ok s => ⟨.ok s, [], 1⟩
    | .error _ =>
      let t := googleFetchGo outcome left (a + 1)
      ⟨t.result, 300 * (a + 1) :: t.sleeps, t.attempts + 1⟩

/-- wikipedia.py `_fetch_html` and news.py `_fetch_rss` retry loop: sleep
`0.5 * (attempt+1)` seconds, i.e. `500 * (a+1)` ms. -/
def newsFetchGo (outcome : Nat → Except PyErr String) : Nat → Nat → FetchTrace
  | 0, a =>
    match outcome a with
    | .ok s => ⟨.ok s, [], 1⟩
    | .error e => ⟨.error e, [], 1⟩
  | left + 1, a =>
    match outcome a with
    | .ok s => ⟨.ok s, [], 1⟩
    | .error _ =>
      let t := newsFetchGo outcome left (a + 1)
      ⟨t.result, 500 * (a + 1) :: t.sleeps, t.attempts + 1⟩

/-! ## Offline mode (`OFFLINE_MODE`) and `_fixture_for_url`

`urllib.parse.urlparse(url).netloc`: after stripping a leading
`scheme:` (letters, digits, `+-.`, starting with a letter, up to the
first `:`), the netloc is present exactly when the remainder starts with
`//`, and extends to the next `/`, `?` or `#`.  The fixture directory is
a partial map `fs` from paths to file contents. -/

def isSchemeChar (c : Char) : Bool :=
  c.isAlphanum || c == '+' || c == '-' || c == '.'

/-- Strip a leading `scheme:` from the characters of a URL, as
`urllib.parse` does. -/
def dropScheme (cs : List Char) : List Char :=
  let pre := cs.takeWhile (fun c => c != ':')
  if pre.length < cs.length && !pre.isEmpty &&
      (pre.headD ' ').isAlpha && pre.all isSchemeChar
  then cs.drop (pre.length + 1) else cs

/-- `urllib.parse.urlparse(url).netloc`. -/
def urlNetloc (url : String) : String :=
  match dropScheme url.toList with
  | '/' :: '/' :: rest =>
    String.mk (rest.takeWhile (fun c => c != '/' && c != '?' && c != '#'))
  | _ => ""

/-- The fixture file name `f"{parsed.netloc}.html"`, or `"fixture.html"`
when the URL has no netloc (utils/http.py line 41). -/
def fixtureFname (url : String) : String :=
  if urlNetloc url = "" then "fixture.html" else urlNetloc url ++ ".html"

/-- The dedented generic placeholder page returned when no fixture file
matches (utils/http.py lines 46-53). -/
def offlinePlaceholder (url : String) : String :=
  "\n<html>\n    <head><title>OFFLINE MODE</title></head>\n    <body><p>Offline fixture for "
    ++ url ++ "</p></body>\n</html>\n"

/-- `_fixture_for_url` (utils/http.py lines 29-53): read the fixture file
named after the URL host from the fixture directory, else the
placeholder. -/
def fixtureForUrl (fs : String → Option String) (dir url : String) : String :=
  match fs (dir ++ "/" ++ fixtureFname url) with
  | some content => content
  | none => offlinePlaceholder url

/-- `fetch_text` (utils/http.py lines 103-173).  When `OFFLINE_MODE` was
set at import time it returns the fixture before any network call;
otherwise it runs the retry loop starting at attempt 0. -/
def fetchText (offline : Bool) (fs : String → Option String) (dir url : String)
    (outcome : Nat → Except PyErr String) (retries : Nat) : FetchTrace :=
  if offline then ⟨.ok (fixtureForUrl fs dir url), [], 0⟩
  else fetchTextGo outcome retries 0

/-- Attempt outcomes of spec §8 Scenario 2: the first attempt raises a
transport error, the second succeeds. -/
def scenarioOutcome : Nat → Except PyErr String :=
  fun a => if a = 0 then .error .fetchErr else .ok "body"

/-! ## Orchestrators (claim C1)

The legacy-stage outcome and the parse function are parameters (they wrap
Newspaper3k and BeautifulSoup).  A Python function that raises is an
`Except.error`; one that returns normally is an `Except.ok`. -/

/-- news.py `google_news_top_words` (lines 162-190): legacy HTML stage in
a `try/except` (nonempty result returned, empty result or exception falls
through), then `run_scraper(_fetch_rss, _parse_wrapper)` in a
`try/except` returning `[]` on any exception. -/
def googleNewsTopWords (legacy : Except PyErr (List String))
    (outcome : Nat → Except PyErr String) (retries : Nat)
    (parse : String → Except PyErr (List String)) : Except PyErr (List String) :=
  let rssStage : Except PyErr (List String) :=
    match (newsFetchGo outcome retries 0).result with
    | .ok xml =>
      match parse xml with
      | .ok ws => .ok ws
      | .error _ => .ok []
    | .error _ => .ok []
  match legacy with
  | .ok ws => if ws.isEmpty then rssStage else .ok ws
  | .error _ => rssStage

/-- duckduckgo_web.py `duckduckgo_top_words` (lines 185-201): the module
imports only `ScraperContext` from `.base` (line 28), so the name
`run_scraper` in `return await run_scraper(term, _fetch_html,
_parse_wrapper, ctx)` at line 201 is unbound and the call raises
`NameError` before any HTTP attempt.  There is also no `try/except`
around it, so the exception reaches the caller.  The result pairs the
outcome with the number of HTTP attempts issued (always zero here); the
`outcome`/`retries` parameters record that no fetch environment changes
this. -/
def duckduckgoTopWords (_outcome : Nat → Except PyErr String) (_retries : Nat) :
    Except PyErr (List String) × Nat :=
  (.error .nameError, 0)

/-! ## Browser renderer (claim C4, browser.py) -/

/-- Environment of the Selenium path `_fetch_sync`: whether the import
guard succeeded, and what the driver does at each step. -/
structure SelEnv where
  available : Bool
  launch : Except PyErr Unit
  nav : Except PyErr Unit
  pageSource : Except PyErr (Option String)
deriving DecidableEq

/-- Environment of the Playwright path: whether the import guard
succeeded and the outcome of the whole `async_playwright` block. -/
structure PwEnv where
  available : Bool
  run : Except PyErr String
deriving DecidableEq

/-- Result of a render call plus whether a browser launch was attempted. -/
structure BrowserResult where
  result : Except PyErr String
  launched : Bool
deriving DecidableEq

/-- browser.py `_fetch_sync` (lines 66-106): unavailable stack returns
`""` without launching; a launch failure is caught and returns `""`; the
navigation/extraction block is `try/finally` with no `except`, so those
exceptions propagate (after `driver.quit()`); `page_source or ""` maps a
`None` page source to `""`. -/
def fetchSync (env : SelEnv) : BrowserResult :=
  if env.available then
    match env.launch with
    | .error _ => ⟨.ok "", true⟩
    | .ok _ =>
      match env.nav with
      | .error e => ⟨.error e, true⟩
      | .ok _ =>
        match env.pageSource with
        | .error e => ⟨.error e, true⟩
        | .ok none => ⟨.ok "", true⟩
        | .ok (some s) => ⟨.ok s, true⟩
  else ⟨.ok "", false⟩

/-- browser.py `fetch_html` (lines 112-173): the Playwright branch runs
when `ctx.browser_type` is `"playwright"` or `"playwright_stealth"`,
returning `""` when Playwright is not importable and converting every
exception of the block to `""`; every other browser_type goes to the
threaded Selenium path, whose exceptions propagate. -/
def browserFetchHtml (browserType : String) (pw : PwEnv) (sel : SelEnv) :
    BrowserResult :=
  if browserType = "playwright" ∨ browserType = "playwright_stealth" then
    if pw.available then
      match pw.run with
      | .ok html => ⟨.ok html, true⟩
      | .error _ => ⟨.ok "", true⟩
    else ⟨.ok "", false⟩
  else fetchSync sel

/-! ## Google SERP orchestrator (claims C6, google_web.py) -/

/-- Observable outcome of `fetch_serp_html`: the returned HTML, the
warnings emitted, and how many plain-HTTP and browser fetches ran. -/
structure SerpTrace where
  html : String
  warnings : List String
  httpCalls : Nat
  browserCalls : Nat
deriving DecidableEq

/-- The `RuntimeWarning` message of google_web.py line 136. -/
def googleWarning : String :=
  "Plain HTTP scraping for Google is disabled. Set ScraperContext(use_browser=True) "

/-- google_web.py `fetch_serp_html` (lines 115-195): with
`ctx.use_browser` false it warns and returns `""` before any network
call; with it true it goes straight to the browser fetch (whose
exceptions propagate) and returns its HTML, or `""` when the browser
yielded nothing.  The plain-HTTP legacy path below the two early returns
is unreachable. -/
def fetchSerpHtml (useBrowser : Bool) (browser : Except PyErr String) :
    Except PyErr SerpTrace :=
  if !useBrowser then
    .ok ⟨"", [googleWarning], 0, 0⟩
  else
    match browser with
    | .ok html => if html ≠ "" then .ok ⟨html, [], 0, 1⟩ else .ok ⟨"", [], 0, 1⟩
    | .error e => .error e

/-- google_web.py `google_web_top_words` (lines 205-218): fetch the SERP
HTML, return `[]` when it is empty, else parse it. -/
def googleWebTopWords (useBrowser : Bool) (browser : Except PyErr String)
    (parse : String → List String) : Except PyErr (List String) :=
  match fetchSerpHtml useBrowser browser with
  | .ok t => if t.html = "" then .ok [] else .ok (parse t.html)
  | .error e => .error e

/-! ## ScraperContext, `run_scraper` and the fan-out runner
(claims C7 and C9, scrapers/base.py)

Python dicts are modelled as association lists living in a heap (a list
of dicts addressed by index), so that `.copy()` — allocation of a new
cell — is distinguishable from in-place mutation.  The context holds a
reference to its headers dict; its remaining fields are plain values. -/

abbrev HDict : Type := List (String × String)

abbrev Heap : Type := List HDict

/-- Dereference: out-of-range reads give the empty dict (never happens in
the modelled code; it keeps the model total). -/
def heapGet (heap : Heap) (r : Nat) : HDict := (List.get? heap r).getD []

/-- `dict.setdefault(k, v)`: insert only when the key is absent. -/
def dictSetdefault (k v : String) (d : HDict) : HDict :=
  if d.any (fun kv => kv.1 == k) then d else d ++ [(k, v)]

/-- `dict[k] = v`: overwrite in place or append. -/
def dictSet (k v : String) (d : HDict) : HDict :=
  if d.any (fun kv => kv.1 == k)
  then d.map (fun kv => if kv.1 == k then (k, v) else kv)
  else d ++ [(k, v)]

/-- `ScraperContext` (base.py lines 37-62). -/
structure ScraperContext where
  headersRef : Nat
  timeoutMs : Nat
  retries : Nat
  userAgents : Option (List String)
  proxy : Option String
  useBrowser : Bool
  debug : Bool
  maxDepth : Nat
  browserType : String
deriving DecidableEq, Repr

/-- google_web.py `_fetch_html` lines 55-66: `headers =
ctx.headers.copy()` followed by three `setdefault`s on the copy; the
merged dict is allocated at a fresh reference. -/
def googleHeaderPrep (heap : Heap) (ctx : ScraperContext) (ua : String) :
    Heap × Nat :=
  let d := heapGet heap ctx.headersRef
  let h1 := dictSetdefault "User-Agent" ua d
  let h2 := dictSetdefault "Accept-Language" "en-US,en;q=0.9" h1
  let h3 := dictSetdefault "Accept"
    "text/html,application/xhtml+xml,application/xml;q=0.9,image/avif,image/webp,*/*;q=0.8" h2
  (heap ++ [h3], heap.length)

/-- utils/http.py `fetch_text` lines 125-128: `headers = headers.copy()
if headers else ` an empty dict, then `setdefault` of the User-Agent on
the copy. -/
def fetchTextHeaderPrep (heap : Heap) (headersRef : Option Nat) (ua : String) :
    Heap × Nat :=
  let d := match headersRef with
    | some r => heapGet heap r
    | none => []
  let h1 := dictSetdefault "User-Agent" ua d
  (heap ++ [h1], heap.length)

/-- wikipedia.py `_fetch_html` lines 52-55: copy, then assignment
`headers["User-Agent"] = ua` when a user agent was chosen. -/
def wikiHeaderPrep (heap : Heap) (ctx : ScraperContext) (ua : Option String) :
    Heap × Nat :=
  let d := heapGet heap ctx.headersRef
  let h1 := match ua with
    | some u => dictSet "User-Agent" u d
    | none => d
  (heap ++ [h1], heap.length)

/-- base.py `run_scraper` (lines 82-96) in the all-stages-succeed case:
`fetch(term, ctx)` then `parse(raw, term, ctx)`. -/
def runScraperModel (fetch : String → ScraperContext → String)
    (parse : String → String → ScraperContext → List String)
    (ctx : ScraperContext) (term : String) : List String :=
  parse (fetch term ctx) term ctx

/-- One completed task writes its result into its slot. -/
def schedWrite (store : Nat → Option (List String)) (j : Nat)
    (v : Option (List String)) : Nat → Option (List String) :=
  fun i => if i = j then v else store i

/-- Run the fan-out tasks in an arbitrary completion order `order`
(the indices of the tasks in the order in which they finish; the
semaphore bounds how many run at once but only constrains which orders
are possible).  Each completed task `j` stores the result for the `j`-th
term. -/
def runSched (f : String → List String) (terms : List String)
    (order : List Nat) : Nat → Option (List String) :=
  order.foldl (fun store j => schedWrite store j ((List.get? terms j).map f)) (fun _ => none)

/-- base.py `gather_scrapers` (lines 99-116): `asyncio.gather` returns
the slots in task-creation order, which is the order of `terms`. -/
def gatherScrapers (fetch : String → ScraperContext → String)
    (parse : String → String → ScraperContext → List String)
    (ctx : ScraperContext) (terms : List String) (order : List Nat) :
    List (Option (List String)) :=
  (List.range terms.length).map (runSched (runScraperModel fetch parse ctx) terms order)

/-! ### Basic lemmas about the ranking pipeline -/

theorem mem_insDesc {key : String → Nat} {x y : String} {l : List String} :
    y ∈ insDesc key x l ↔ y = x ∨ y ∈ l := by
  induction l with
  | nil => simp [insDesc]
  | cons h t ih =>
    by_cases hc : key h ≤ key x
    · simp [insDesc, hc]
    · simp [insDesc, hc, ih]
      tauto

theorem insDesc_perm (key : String → Nat) (x : String) (l : List String) :
    List.Perm (insDesc key x l) (x :: l) := by
  induction l with
  | nil => rfl
  | cons h t ih =>
    by_cases hc : key h ≤ key x
    · simp [insDesc, hc]
    · simp only [insDesc, hc, if_false]
      exact (ih.cons h).trans (List.Perm.swap x h t)

theorem sortDesc_perm (key : String → Nat) (l : List String) :
    List.Perm (sortDesc key l) l := by
  induction l with
  | nil => rfl
  | cons x xs ih =>
    exact (insDesc_perm key x (sortDesc key xs)).trans (ih.cons x)

theorem mem_sortDesc {key : String → Nat} {y : String} {l : List String} :
    y ∈ sortDesc key l ↔ y ∈ l :=
  (sortDesc_perm key l).mem_iff

theorem mem_dedupFirstGo {y : String} : ∀ {l seen : List String},
    y ∈ dedupFirstGo seen l ↔ y ∈ l ∧ y ∉ seen := by
  intro l
  induction l with
  | nil => simp [dedupFirstGo]
  | cons x xs ih =>
    intro seen
    rw [dedupFirstGo]
    by_cases hx : x ∈ seen
    · simp only [hx, if_true, ih, List.mem_cons]
      constructor
      · exact fun ⟨h1, h2⟩ => ⟨Or.inr h1, h2⟩
      · rintro ⟨h1 | h1, h2⟩
        · exact absurd (h1 ▸ hx) h2
        · exact ⟨h1, h2⟩
    · simp only [hx, if_false, List.mem_cons, ih]
      by_cases hy : y = x
      · subst hy
        simp [hx]
      · simp [hy]

theorem mem_dedupFirst {y : String} {l : List String} :
    y ∈ dedupFirst l ↔ y ∈ l := by
  unfold dedupFirst
  rw [mem_dedupFirstGo]
  simp

theorem dedupFirstGo_nodup : ∀ (l seen : List String), (dedupFirstGo seen l).Nodup := by
  intro l
  induction l with
  | nil => intro seen; simp [dedupFirstGo]
  | cons x xs ih =>
    intro seen
    rw [dedupFirstGo]
    by_cases hx : x ∈ seen
    · simp only [hx, if_true]
      exact ih seen
    · simp only [hx, if_false]
      refine List.nodup_cons.mpr ⟨?_, ih (x :: seen)⟩
      intro hmem
      exact (mem_dedupFirstGo.mp hmem).2 (List.mem_cons_self _ _)

theorem dedupFirst_nodup (l : List String) : (dedupFirst l).Nodup :=
  dedupFirstGo_nodup l []

theorem rankAll_nodup (toks : List String) : (rankAll toks).Nodup :=
  ((sortDesc_perm _ _).nodup_iff).mpr (dedupFirst_nodup toks)

theorem mem_rankAll {y : String} {toks : List String} :
    y ∈ rankAll toks ↔ y ∈ toks := by
  unfold rankAll
  rw [mem_sortDesc, mem_dedupFirst]

theorem mem_removeStopwords {sw toks : List String} {t : String} :
    t ∈ removeStopwords sw toks ↔ t ∈ toks ∧ t ∉ sw := by
  simp [removeStopwords, List.mem_filter]

/-! ### The ranking order

`rankedBefore cnt D a b` is the order the spec describes: descending
count, ties broken by first-occurrence order.  `D` is the distinct-token
list in first-occurrence order, so `D.indexOf` is the first-occurrence
rank of a token. -/

theorem insDesc_pairwise {r : String → String → Prop} {key : String → Nat}
    (hkey : ∀ a b, r a b → key b ≤ key a) {x : String} {l : List String}
    (hl : l.Pairwise r)
    (hx : ∀ y ∈ l, (key y ≤ key x → r x y) ∧ (key x < key y → r y x)) :
    (insDesc key x l).Pairwise r := by
  induction l with
  | nil => simp [insDesc]
  | cons h t ih =>
    rw [List.pairwise_cons] at hl
    obtain ⟨hh, ht⟩ := hl
    by_cases hc : key h ≤ key x
    · simp only [insDesc, hc, if_true]
      refine List.pairwise_cons.mpr ⟨?_, List.pairwise_cons.mpr ⟨hh, ht⟩⟩
      intro y hy
      rcases List.mem_cons.mp hy with rfl | hyt
      · exact (hx y (List.mem_cons_self _ _)).1 hc
      · rcases Nat.lt_or_ge (key x) (key y) with hlt | hle
        · exact absurd (Nat.le_trans (hkey h y (hh y hyt)) hc) (Nat.not_le_of_lt hlt)
        · exact (hx y (List.mem_cons_of_mem _ hyt)).1 hle
    · simp only [insDesc, hc, if_false]
      refine List.pairwise_cons.mpr
        ⟨?_, ih ht (fun y hy => hx y (List.mem_cons_of_mem _ hy))⟩
      intro z hz
      rcases mem_insDesc.mp hz with rfl | hzt
      · exact (hx h (List.mem_cons_self _ _)).2 (Nat.lt_of_not_le hc)
      · exact hh z hzt

theorem sortDesc_pairwise {r : String → String → Prop} {key : String → Nat}
    (hkey : ∀ a b, r a b → key b ≤ key a) {l : List String}
    (hl : l.Pairwise
      (fun a b => (key b ≤ key a → r a b) ∧ (key a < key b → r b a))) :
    (sortDesc key l).Pairwise r := by
  induction l with
  | nil => simp [sortDesc]
  | cons x xs ih =>
    rw [List.pairwise_cons] at hl
    obtain ⟨hx, hxs⟩ := hl
    exact insDesc_pairwise hkey (ih hxs) (fun y hy => hx y (mem_sortDesc.mp hy))

theorem nodup_pairwise_indexOf {l : List String} (h : l.Nodup) :
    l.Pairwise (fun a b => l.indexOf a < l.indexOf b) := by
  induction l with
  | nil => simp
  | cons x xs ih =>
    rw [List.nodup_cons] at h
    obtain ⟨hx, hxs⟩ := h
    refine List.pairwise_cons.mpr ⟨?_, ?_⟩
    · intro b hb
      have hbx : x ≠ b := fun e => hx (e ▸ hb)
      rw [List.indexOf_cons_self, List.indexOf_cons_ne _ hbx]
      exact Nat.succ_pos _
    · refine (ih hxs).imp_of_mem ?_
      intro a b ha hb hab
      have hxa : x ≠ a := fun e => hx (e ▸ ha)
      have hxb : x ≠ b := fun e => hx (e ▸ hb)
      rw [List.indexOf_cons_ne _ hxa, List.indexOf_cons_ne _ hxb]
      exact Nat.succ_lt_succ hab

/-- The full `Counter.most_common()` list is ordered by descending count
with ties in first-occurrence order. -/
theorem rankAll_pairwise (toks : List String) :
    (rankAll toks).Pairwise
      (rankedBefore (fun t => toks.count t) (dedupFirst toks)) := by
  refine sortDesc_pairwise ?_ ?_
  · intro a b hab
    rcases hab with h | ⟨h, _⟩
    · exact Nat.le_of_lt h
    · exact Nat.le_of_eq h.symm
  · refine (nodup_pairwise_indexOf (dedupFirst_nodup toks)).imp_of_mem ?_
    intro a b _ _ hab
    constructor
    · intro hle
      rcases Nat.lt_or_ge (toks.count b) (toks.count a) with hlt | hge
      · exact Or.inl hlt
      · exact Or.inr ⟨Nat.le_antisymm hge hle, hab⟩
    · intro hlt
      exact Or.inl hlt

theorem ddgLoop_eq_take (topN : Nat) : ∀ (ranked acc : List String),
    acc.length < topN → ranked.Nodup → (∀ t ∈ ranked, t ∉ acc) →
    ddgLoop topN ranked acc = acc ++ ranked.take (topN - acc.length) := by
  intro ranked
  induction ranked with
  | nil =>
    intro acc _ _ _
    simp [ddgLoop]
  | cons tok rest ih =>
    intro acc hlen hnd hdisj
    have htok : tok ∉ acc := hdisj tok (List.mem_cons_self _ _)
    rw [List.nodup_cons] at hnd
    obtain ⟨htr, hrest⟩ := hnd
    rw [ddgLoop]
    simp only [htok, if_false]
    by_cases heq : (acc ++ [tok]).length = topN
    · simp only [heq, if_true]
      have : topN - acc.length = 1 := by
        simp only [List.length_append, List.length_singleton] at heq
        omega
      rw [this, List.take_succ_cons, List.take_zero]
    · simp only [heq, if_false]
      have hlt : (acc ++ [tok]).length < topN := by
        simp only [List.length_append, List.length_singleton] at heq ⊢
        omega
      rw [ih (acc ++ [tok]) hlt hrest ?_]
      · have harith : topN - acc.length = (topN - (acc ++ [tok]).length) + 1 := by
          simp only [List.length_append, List.length_singleton] at hlt ⊢
          omega
        rw [harith, List.take_succ_cons, List.append_assoc]
        rfl
      · intro t ht
        simp only [List.mem_append, List.mem_singleton]
        push_neg
        exact ⟨fun hmem => hdisj t (List.mem_cons_of_mem _ ht) hmem,
               fun e => htr (e ▸ ht)⟩

/-- For a positive cap the DuckDuckGo loop is plain `take` of the ranked
list. -/
theorem ddgParseTokens_eq_take (sw : List String) (combined : String)
    {topN : Nat} (h : 1 ≤ topN) :
    ddgParseTokens sw combined topN =
      (rankAll (removeStopwords sw (tokeniseAndBigrams combined))).take topN := by
  unfold ddgParseTokens
  rw [ddgLoop_eq_take topN _ [] (by simpa using h)
        (rankAll_nodup _) (by simp)]
  simp

/-! ## Claim C3 — stop-word absence and the unfiltered fallback -/

/-- Claim C3 counterexample: `most_common` (utils/text.py) has no
unfiltered fallback.  With stop-word set containing "the" and input
consisting only of "the", filtering removes every token and the function
returns the empty list, not the top-N of the unfiltered counts
(which would be the nonempty list obtained by ranking the raw tokens). -/
theorem c3_counterexample :
    ¬ (removeStopwords ["the"] ["the"] = [] → ["the"] ≠ ([] : List String) →
        mostCommon ["the"] ["the"] 5 = (rankAll ["the"]).take 5) := by
  decide

/-- Claim C3 (amended): `most_common` never returns a stop-word and, when
filtering removes every token, returns the empty list (no unfiltered
fallback); the Wikipedia/News parsers do apply the unfiltered fallback,
returning the top-N of the unfiltered counts in that case, and outside
that case they never return a stop-word. -/
theorem c3_stopword_filtering (sw toks tokens : List String) (n : Nat) :
    (∀ t, t ∈ mostCommon sw toks n → t ∉ sw) ∧
    (removeStopwords sw toks = [] → mostCommon sw toks n = []) ∧
    (removeStopwords sw tokens = [] →
      wikipediaRankTokens sw tokens n = (rankAll tokens).take n) ∧
    (∀ t, removeStopwords sw tokens ≠ [] →
      t ∈ wikipediaRankTokens sw tokens n → t ∉ sw) := by
  refine ⟨?_, ?_, ?_, ?_⟩
  · intro t ht
    have h1 : t ∈ rankAll (removeStopwords sw toks) := List.mem_of_mem_take ht
    exact (mem_removeStopwords.mp (mem_rankAll.mp h1)).2
  · intro h
    unfold mostCommon
    rw [h]
    have hnil : rankAll [] = [] := rfl
    rw [hnil, List.take_nil]
  · intro h
    unfold wikipediaRankTokens
    simp only [h, if_true]
  · intro t h ht
    unfold wikipediaRankTokens at ht
    simp only [h, if_false] at ht
    have h1 : t ∈ rankAll (removeStopwords sw tokens) := List.mem_of_mem_take ht
    exact (mem_removeStopwords.mp (mem_rankAll.mp h1)).2

/-- Witness for C3: a concrete run of each guarded part. -/
theorem c3_witness :
    ("bb" ∈ mostCommon ["the"] ["bb", "bb", "the"] 5 ∧ "bb" ∉ ["the"]) ∧
    (removeStopwords ["the"] ["the", "the"] = [] ∧
      wikipediaRankTokens ["the"] ["the", "the"] 5 = (rankAll ["the", "the"]).take 5) :=
  ⟨⟨by decide,
    (c3_stopword_filtering ["the"] ["bb", "bb", "the"] [] 5).1 "bb" (by decide)⟩,
   ⟨by decide,
    (c3_stopword_filtering ["the"] [] ["the", "the"] 5).2.2.1 (by decide)⟩⟩

/-! ## Claim C8 — length cap, no duplicates, ranking order -/

/-- Claim C8 counterexample: the DuckDuckGo parser checks the cap only
after appending, so with `top_n = 0` and a nonempty token list it returns
every distinct token instead of none. -/
theorem c8_counterexample :
    ddgParseTokens [] "btc" 0 = ["btc"] ∧
      ¬ ((ddgParseTokens [] "btc" 0).length ≤ 0) := by
  constructor
  · decide
  · decide

/-- Claim C8 (amended): the returned token list has length at most
`top_n`, has no duplicates and is ordered by descending count with ties
broken by first-occurrence order — for `most_common` at every `top_n ≥ 0`,
and for the DuckDuckGo parser at every `top_n ≥ 1` (at `top_n = 0` that
parser returns all distinct tokens). -/
theorem c8_token_list_shape (sw toks : List String) (combined : String) (n : Nat) :
    ((mostCommon sw toks n).length ≤ n ∧
     (mostCommon sw toks n).Nodup ∧
     (mostCommon sw toks n).Pairwise
       (rankedBefore (fun t => (removeStopwords sw toks).count t)
         (dedupFirst (removeStopwords sw toks)))) ∧
    (1 ≤ n →
     (ddgParseTokens sw combined n).length ≤ n ∧
     (ddgParseTokens sw combined n).Nodup ∧
     (ddgParseTokens sw combined n).Pairwise
       (rankedBefore
         (fun t => (removeStopwords sw (tokeniseAndBigrams combined)).count t)
         (dedupFirst (removeStopwords sw (tokeniseAndBigrams combined))))) := by
  constructor
  · refine ⟨?_, ?_, ?_⟩
    · show ((rankAll (removeStopwords sw toks)).take n).length ≤ n
      rw [List.length_take]
      exact Nat.min_le_left _ _
    · exact (rankAll_nodup _).sublist (List.take_sublist _ _)
    · exact (rankAll_pairwise _).take
  · intro h
    rw [ddgParseTokens_eq_take sw combined h]
    refine ⟨?_, ?_, ?_⟩
    · rw [List.length_take]
      exact Nat.min_le_left _ _
    · exact (rankAll_nodup _).sublist (List.take_sublist _ _)
    · exact (rankAll_pairwise _).take

/-- Witness for C8: the DuckDuckGo part at `top_n = 1`. -/
theorem c8_witness :
    (ddgParseTokens [] "btc btc eth" 1).length ≤ 1 ∧
    (ddgParseTokens [] "btc btc eth" 1).Nodup ∧
    (ddgParseTokens [] "btc btc eth" 1).Pairwise
      (rankedBefore
        (fun t => (removeStopwords [] (tokeniseAndBigrams "btc btc eth")).count t)
        (dedupFirst (removeStopwords [] (tokeniseAndBigrams "btc btc eth")))) :=
  (c8_token_list_shape [] [] "btc btc eth" 1).2 (by decide)

/-! ## Claims C2, C5, C10 — the retry/backoff fetchers -/

theorem fetchTextGo_sleeps_exponential (outcome : Nat → Except PyErr String) :
    ∀ left a, ∃ k, (fetchTextGo outcome left a).sleeps =
      (List.range k).map (fun i => 500 * 2 ^ (a + i)) := by
  intro left
  induction left with
  | zero =>
    intro a
    exact ⟨0, by cases h : outcome a <;> simp [fetchTextGo, h]⟩
  | succ left ih =>
    intro a
    cases h : outcome a with
    | ok s => exact ⟨0, by simp [fetchTextGo, h]⟩
    | error e =>
      obtain ⟨k, hk⟩ := ih (a + 1)
      refine ⟨k + 1, ?_⟩
      simp only [fetchTextGo, h]
      rw [hk, List.range_succ_eq_map, List.map_cons, List.map_map]
      have hshift : (List.range k).map (fun i => 500 * 2 ^ (a + 1 + i)) =
          (List.range k).map ((fun i => 500 * 2 ^ (a + i)) ∘ Nat.succ) := by
        refine List.map_congr_left ?_
        intro i _
        simp only [Function.comp_apply]
        have harr : a + 1 + i = a + i.succ := by omega
        rw [harr]
      rw [hshift]
      simp

theorem googleFetchGo_sleeps_linear (outcome : Nat → Except PyErr String) :
    ∀ left a, ∃ k, (googleFetchGo outcome left a).sleeps =
      (List.range k).map (fun i => 300 * (a + i + 1)) := by
  intro left
  induction left with
  | zero =>
    intro a
    exact ⟨0, by cases h : outcome a <;> simp [googleFetchGo, h]⟩
  | succ left ih =>
    intro a
    cases h : outcome a with
    | ok s => exact ⟨0, by simp [googleFetchGo, h]⟩
    | error e =>
      obtain ⟨k, hk⟩ := ih (a + 1)
      refine ⟨k + 1, ?_⟩
      simp only [googleFetchGo, h]
      rw [hk, List.range_succ_eq_map, List.map_cons, List.map_map]
      have hshift : (List.range k).map (fun i => 300 * (a + 1 + i + 1)) =
          (List.range k).map ((fun i => 300 * (a + i + 1)) ∘ Nat.succ) := by
        refine List.map_congr_left ?_
        intro i _
        simp only [Function.comp_apply]
        have harr : a + 1 + i + 1 = a + i.succ + 1 := by omega
        rw [harr]
      rw [hshift]

theorem newsFetchGo_sleeps_linear (outcome : Nat → Except PyErr String) :
    ∀ left a, ∃ k, (newsFetchGo outcome left a).sleeps =
      (List.range k).map (fun i => 500 * (a + i + 1)) := by
  intro left
  induction left with
  | zero =>
    intro a
    exact ⟨0, by cases h : outcome a <;> simp [newsFetchGo, h]⟩
  | succ left ih =>
    intro a
    cases h : outcome a with
    | ok s => exact ⟨0, by simp [newsFetchGo, h]⟩
    | error e =>
      obtain ⟨k, hk⟩ := ih (a + 1)
      refine ⟨k + 1, ?_⟩
      simp only [newsFetchGo, h]
      rw [hk, List.range_succ_eq_map, List.map_cons, List.map_map]
      have hshift : (List.range k).map (fun i => 500 * (a + 1 + i + 1)) =
          (List.range k).map ((fun i => 500 * (a + i + 1)) ∘ Nat.succ) := by
        refine List.map_congr_left ?_
        intro i _
        simp only [Function.comp_apply]
        have harr : a + 1 + i + 1 = a + i.succ + 1 := by omega
        rw [harr]
      rw [hshift]

/-- Claim C2 counterexample: with four failing attempts (`retries = 3`)
`fetch_text` sleeps 500 ms, 1000 ms and 2000 ms — no linear schedule
`base_delay * (attempt+1)` matches this trace, whatever the base. -/
theorem c2_counterexample :
    (fetchText false (fun _ => none) "tests/fixtures" "https://example.com"
        (fun _ => Except.error PyErr.fetchErr) 3).sleeps = [500, 1000, 2000] ∧
    ¬ ∃ b : Nat,
      (fetchText false (fun _ => none) "tests/fixtures" "https://example.com"
          (fun _ => Except.error PyErr.fetchErr) 3).sleeps = [b * 1, b * 2, b * 3] := by
  constructor
  · rfl
  · rintro ⟨b, hb⟩
    have h1 : (fetchText false (fun _ => none) "tests/fixtures" "https://example.com"
        (fun _ => Except.error PyErr.fetchErr) 3).sleeps = [500, 1000, 2000] := rfl
    rw [h1] at hb
    simp only [List.cons.injEq, List.nil_eq] at hb
    omega

/-- Claim C2 (amended): the backoff grows exponentially in `fetch_text`
(utils/http.py): the i-th sleep of a run is `0.5 * 2^i` seconds.  The
per-scraper fetchers are linear: the i-th sleep is `0.3 * (i+1)` seconds
in google_web.py/duckduckgo_web.py `_fetch_html` and `0.5 * (i+1)`
seconds in wikipedia.py `_fetch_html` / news.py `_fetch_rss`. -/
theorem c2_backoff_schedules (fs : String → Option String) (dir url : String)
    (outcome : Nat → Except PyErr String) (retries : Nat) :
    (∃ k, (fetchText false fs dir url outcome retries).sleeps =
      (List.range k).map (fun i => 500 * 2 ^ i)) ∧
    (∃ k, (googleFetchGo outcome retries 0).sleeps =
      (List.range k).map (fun i => 300 * (i + 1))) ∧
    (∃ k, (newsFetchGo outcome retries 0).sleeps =
      (List.range k).map (fun i => 500 * (i + 1))) := by
  refine ⟨?_, ?_, ?_⟩
  · obtain ⟨k, hk⟩ := fetchTextGo_sleeps_exponential outcome retries 0
    refine ⟨k, ?_⟩
    have hred : fetchText false fs dir url outcome retries =
        fetchTextGo outcome retries 0 := rfl
    rw [hred, hk]
    refine List.map_congr_left ?_
    intro i _
    simp
  · obtain ⟨k, hk⟩ := googleFetchGo_sleeps_linear outcome retries 0
    refine ⟨k, ?_⟩
    rw [hk]
    refine List.map_congr_left ?_
    intro i _
    simp
  · obtain ⟨k, hk⟩ := newsFetchGo_sleeps_linear outcome retries 0
    refine ⟨k, ?_⟩
    rw [hk]
    refine List.map_congr_left ?_
    intro i _
    simp

theorem fetchTextGo_attempts_le (outcome : Nat → Except PyErr String) :
    ∀ left a, (fetchTextGo outcome left a).attempts ≤ left + 1 := by
  intro left
  induction left with
  | zero => intro a; cases h : outcome a <;> simp [fetchTextGo, h]
  | succ left ih =>
    intro a
    cases h : outcome a with
    | ok s => simp [fetchTextGo, h]
    | error e =>
      simp only [fetchTextGo, h]
      have := ih (a + 1)
      omega

theorem fetchTextGo_error_attempts (outcome : Nat → Except PyErr String) :
    ∀ left a e, (fetchTextGo outcome left a).result = .error e →
      (fetchTextGo outcome left a).attempts = left + 1 ∧
      outcome (a + left) = .error e := by
  intro left
  induction left with
  | zero =>
    intro a e hres
    cases h : outcome a with
    | ok s => simp [fetchTextGo, h] at hres
    | error e2 =>
      simp only [fetchTextGo, h] at hres ⊢
      cases hres
      simp [h]
  | succ left ih =>
    intro a e hres
    cases h : outcome a with
    | ok s => simp [fetchTextGo, h] at hres
    | error e2 =>
      simp only [fetchTextGo, h] at hres ⊢
      obtain ⟨h1, h2⟩ := ih (a + 1) e hres
      constructor
      · omega
      · have harr : a + (left + 1) = a + 1 + left := by omega
        rw [harr]
        exact h2

theorem fetchTextGo_first_ok (outcome : Nat → Except PyErr String) :
    ∀ left a k s, k ≤ left →
      (∀ j, j < k → ∃ e, outcome (a + j) = .error e) →
      outcome (a + k) = .ok s →
      (fetchTextGo outcome left a).result = .ok s ∧
      (fetchTextGo outcome left a).attempts = k + 1 := by
  intro left
  induction left with
  | zero =>
    intro a k s hk _ hok
    have hk0 : k = 0 := by omega
    subst hk0
    simp only [Nat.add_zero] at hok
    simp [fetchTextGo, hok]
  | succ left ih =>
    intro a k s hk hfail hok
    cases k with
    | zero =>
      simp only [Nat.add_zero] at hok
      simp [fetchTextGo, hok]
    | succ k2 =>
      obtain ⟨e, he⟩ := hfail 0 (Nat.succ_pos _)
      simp only [Nat.add_zero] at he
      simp only [fetchTextGo, he]
      have hrec := ih (a + 1) k2 s (by omega) ?_ ?_
      · exact ⟨hrec.1, by omega⟩
      · intro j hj
        obtain ⟨e2, he2⟩ := hfail (j + 1) (by omega)
        refine ⟨e2, ?_⟩
        have harr : a + 1 + j = a + (j + 1) := by omega
        rw [harr]
        exact he2
      · have harr : a + 1 + k2 = a + (k2 + 1) := by omega
        rw [harr]
        exact hok

/-- Claim C5: `fetch_text` makes at most `retries + 1` attempts, an
exception reaches the caller only after all `retries + 1` attempts
failed, and the body of the first successful attempt is returned (after
exactly `k + 1` attempts when attempt `k` is the first success). -/
theorem c5_retry_contract (fs : String → Option String) (dir url : String)
    (outcome : Nat → Except PyErr String) (retries : Nat) :
    ((fetchText false fs dir url outcome retries).attempts ≤ retries + 1) ∧
    (∀ e, (fetchText false fs dir url outcome retries).result = .error e →
      (fetchText false fs dir url outcome retries).attempts = retries + 1 ∧
      outcome retries = .error e) ∧
    (∀ k s, k ≤ retries → (∀ j, j < k → ∃ e, outcome j = .error e) →
      outcome k = .ok s →
      (fetchText false fs dir url outcome retries).result = .ok s ∧
      (fetchText false fs dir url outcome retries).attempts = k + 1) := by
  have hred : fetchText false fs dir url outcome retries =
      fetchTextGo outcome retries 0 := rfl
  rw [hred]
  refine ⟨fetchTextGo_attempts_le outcome retries 0, ?_, ?_⟩
  · intro e hres
    have := fetchTextGo_error_attempts outcome retries 0 e hres
    simpa using this
  · intro k s hk hfail hok
    refine fetchTextGo_first_ok outcome retries 0 k s hk ?_ ?_
    · intro j hj
      simpa using hfail j hj
    · simpa using hok

/-- Witness for C5: spec §8 Scenario 2 — first attempt raises, second
succeeds, `retries = 1`: the successful body is returned after exactly
two attempts. -/
theorem c5_witness :
    (fetchText false (fun _ => none) "tests/fixtures" "https://example.com"
        scenarioOutcome 1).result = .ok "body" ∧
    (fetchText false (fun _ => none) "tests/fixtures" "https://example.com"
        scenarioOutcome 1).attempts = 2 :=
  (c5_retry_contract (fun _ => none) "tests/fixtures" "https://example.com"
      scenarioOutcome 1).2.2 1 "body" (by decide)
    (fun j hj => ⟨PyErr.fetchErr, by
      have hj0 : j = 0 := by omega
      subst hj0
      rfl⟩)
    (by rfl)

/-- Claim C10: with `OFFLINE_MODE` set at import time, `fetch_text`
returns the cached fixture for the URL host (or the generic placeholder
when no fixture file exists), issues no network attempt, sleeps no
backoff, and never raises. -/
theorem c10_offline_fetch (fs : String → Option String) (dir url : String)
    (outcome : Nat → Except PyErr String) (retries : Nat) :
    (fetchText true fs dir url outcome retries).attempts = 0 ∧
    (fetchText true fs dir url outcome retries).sleeps = [] ∧
    (∀ c, fs (dir ++ "/" ++ fixtureFname url) = some c →
      (fetchText true fs dir url outcome retries).result = .ok c) ∧
    (fs (dir ++ "/" ++ fixtureFname url) = none →
      (fetchText true fs dir url outcome retries).result =
        .ok (offlinePlaceholder url)) := by
  refine ⟨rfl, rfl, ?_, ?_⟩
  · intro c hc
    simp [fetchText, fixtureForUrl, hc]
  · intro hn
    simp [fetchText, fixtureForUrl, hn]

/-- Witness for C10: a fixture directory holding `example.com.html` is
served for `https://example.com/page`; with an empty directory the
placeholder page is served. -/
theorem c10_witness :
    ((fun p => if p = "tests/fixtures/example.com.html"
        then some "<html>cached</html>" else none)
      ("tests/fixtures" ++ "/" ++ fixtureFname "https://example.com/page") =
        some "<html>cached</html>") ∧
    (fetchText true
        (fun p => if p = "tests/fixtures/example.com.html"
          then some "<html>cached</html>" else none)
        "tests/fixtures" "https://example.com/page"
        (fun _ => Except.error PyErr.fetchErr) 2).result =
      Except.ok "<html>cached</html>" ∧
    (fetchText true (fun _ => none) "tests/fixtures" "https://example.com/page"
        (fun _ => Except.error PyErr.fetchErr) 2).result =
      Except.ok (offlinePlaceholder "https://example.com/page") :=
  ⟨by decide,
   (c10_offline_fetch
      (fun p => if p = "tests/fixtures/example.com.html"
        then some "<html>cached</html>" else none)
      "tests/fixtures" "https://example.com/page"
      (fun _ => Except.error PyErr.fetchErr) 2).2.2.1
     "<html>cached</html>" (by decide),
   (c10_offline_fetch (fun _ => none) "tests/fixtures" "https://example.com/page"
      (fun _ => Except.error PyErr.fetchErr) 2).2.2.2 rfl⟩

/-! ## Claim C1 — orchestrator exception behaviour -/

/-- Claim C1 counterexample: even with a fetch environment in which
every HTTP attempt would succeed, `duckduckgo_top_words` raises
`NameError` to its caller (issuing zero HTTP attempts) instead of
returning a token list. -/
theorem c1_counterexample :
    duckduckgoTopWords (fun _ => Except.ok "<html></html>") 2 =
      (Except.error PyErr.nameError, 0) := rfl

/-- Claim C1 (amended): `google_news_top_words` never raises — every
stage's exception is caught and total failure yields `[]` — but
`duckduckgo_top_words` always raises: `run_scraper` is never imported in
duckduckgo_web.py, so the call at line 201 raises `NameError` before any
HTTP attempt, and nothing catches it. -/
theorem c1_orchestrator_exceptions (legacy : Except PyErr (List String))
    (outcome : Nat → Except PyErr String) (retries : Nat)
    (parse : String → Except PyErr (List String)) (e : PyErr) :
    (∃ ws, googleNewsTopWords legacy outcome retries parse = Except.ok ws) ∧
    ((legacy = Except.ok [] ∨ ∃ e2, legacy = Except.error e2) →
      (newsFetchGo outcome retries 0).result = Except.error e →
      googleNewsTopWords legacy outcome retries parse = Except.ok []) ∧
    (duckduckgoTopWords outcome retries = (Except.error PyErr.nameError, 0)) := by
  refine ⟨?_, ?_, ?_⟩
  · cases legacy with
    | ok ws =>
      by_cases hws : ws.isEmpty
      · cases hres : (newsFetchGo outcome retries 0).result with
        | ok xml =>
          cases hp : parse xml with
          | ok ws2 => exact ⟨ws2, by simp [googleNewsTopWords, hws, hres, hp]⟩
          | error e3 => exact ⟨[], by simp [googleNewsTopWords, hws, hres, hp]⟩
        | error e3 => exact ⟨[], by simp [googleNewsTopWords, hws, hres]⟩
      · exact ⟨ws, by simp [googleNewsTopWords, hws]⟩
    | error e1 =>
      cases hres : (newsFetchGo outcome retries 0).result with
      | ok xml =>
        cases hp : parse xml with
        | ok ws2 => exact ⟨ws2, by simp [googleNewsTopWords, hres, hp]⟩
        | error e3 => exact ⟨[], by simp [googleNewsTopWords, hres, hp]⟩
      | error e3 => exact ⟨[], by simp [googleNewsTopWords, hres]⟩
  · intro hleg hfetch
    rcases hleg with hleg | ⟨e2, hleg⟩ <;> subst hleg <;>
      simp [googleNewsTopWords, hfetch]
  · rfl

/-- Witness for C1: with an empty legacy result and every RSS attempt
failing, `google_news_top_words` returns the empty list, raising
nothing. -/
theorem c1_witness :
    googleNewsTopWords (Except.ok []) (fun _ => Except.error PyErr.fetchErr) 1
        (fun s => Except.ok [s]) = Except.ok [] :=
  (c1_orchestrator_exceptions (Except.ok []) (fun _ => Except.error PyErr.fetchErr) 1
      (fun s => Except.ok [s]) PyErr.fetchErr).2.1 (Or.inl rfl) rfl

/-! ## Claim C4 — browser renderer failure semantics -/

/-- Claim C4 counterexample: a navigation failure on the Selenium path
propagates out of `fetch_html` (the `try/finally` in `_fetch_sync` has no
`except` clause), so the renderer does not return `""` on every
failure. -/
theorem c4_counterexample :
    (browserFetchHtml "selenium" ⟨false, Except.ok ""⟩
        ⟨true, Except.ok (), Except.error PyErr.fetchErr, Except.ok none⟩).result =
      Except.error PyErr.fetchErr := rfl

/-- Claim C4 (amended): an unavailable backend short-circuits to `""`
with no launch attempt (both backends); the Playwright path converts
every failure of its block to `""` and never raises; a Selenium launch
failure is caught and yields `""`; but Selenium navigation exceptions
and page-source extraction exceptions both propagate to the caller. -/
theorem c4_render_contract (pw : PwEnv) (sel : SelEnv) (bt : String) :
    ((bt = "playwright" ∨ bt = "playwright_stealth") → pw.available = false →
      browserFetchHtml bt pw sel = ⟨Except.ok "", false⟩) ∧
    ((bt = "playwright" ∨ bt = "playwright_stealth") → pw.available = true →
      ∀ e2, pw.run = Except.error e2 →
        browserFetchHtml bt pw sel = ⟨Except.ok "", true⟩) ∧
    ((bt = "playwright" ∨ bt = "playwright_stealth") →
      ∃ s, (browserFetchHtml bt pw sel).result = Except.ok s) ∧
    (¬ (bt = "playwright" ∨ bt = "playwright_stealth") → sel.available = false →
      browserFetchHtml bt pw sel = ⟨Except.ok "", false⟩) ∧
    (¬ (bt = "playwright" ∨ bt = "playwright_stealth") → sel.available = true →
      (∀ e2, sel.launch = Except.error e2 →
        browserFetchHtml bt pw sel = ⟨Except.ok "", true⟩) ∧
      (sel.launch = Except.ok () →
        (∀ e2, sel.nav = Except.error e2 →
          (browserFetchHtml bt pw sel).result = Except.error e2) ∧
        (sel.nav = Except.ok () → ∀ e2, sel.pageSource = Except.error e2 →
          (browserFetchHtml bt pw sel).result = Except.error e2))) := by
  refine ⟨?_, ?_, ?_, ?_, ?_⟩
  · intro hbt hpw
    simp [browserFetchHtml, hbt, hpw]
  · intro hbt hpw e2 hrun
    simp [browserFetchHtml, hbt, hpw, hrun]
  · intro hbt
    by_cases hpw : pw.available
    · cases hrun : pw.run with
      | ok html => exact ⟨html, by simp [browserFetchHtml, hbt, hpw, hrun]⟩
      | error e2 => exact ⟨"", by simp [browserFetchHtml, hbt, hpw, hrun]⟩
    · exact ⟨"", by simp [browserFetchHtml, hbt, hpw]⟩
  · intro hbt hsel
    simp [browserFetchHtml, hbt, fetchSync, hsel]
  · intro hbt hsel
    refine ⟨?_, ?_⟩
    · intro e2 hlaunch
      simp [browserFetchHtml, hbt, fetchSync, hsel, hlaunch]
    · intro hlaunch
      refine ⟨?_, ?_⟩
      · intro e2 hnav
        simp [browserFetchHtml, hbt, fetchSync, hsel, hlaunch, hnav]
      · intro hnav e2 hps
        simp [browserFetchHtml, hbt, fetchSync, hsel, hlaunch, hnav, hps]

/-- Witness for C4: both backends short-circuit to `""` without a launch
when their dependency is unavailable. -/
theorem c4_witness :
    browserFetchHtml "playwright" ⟨false, Except.ok "x"⟩
        ⟨true, Except.ok (), Except.ok (), Except.ok (some "html")⟩ =
      ⟨Except.ok "", false⟩ ∧
    browserFetchHtml "selenium" ⟨false, Except.ok "x"⟩
        ⟨false, Except.ok (), Except.ok (), Except.ok (some "html")⟩ =
      ⟨Except.ok "", false⟩ :=
  ⟨(c4_render_contract ⟨false, Except.ok "x"⟩
      ⟨true, Except.ok (), Except.ok (), Except.ok (some "html")⟩
      "playwright").1 (Or.inl rfl) rfl,
   (c4_render_contract ⟨false, Except.ok "x"⟩
      ⟨false, Except.ok (), Except.ok (), Except.ok (some "html")⟩
      "selenium").2.2.2.1 (by decide) rfl⟩

/-! ## Claim C6 — Google orchestrator with `use_browser = False` -/

/-- Claim C6: with `ctx.use_browser` false the Google orchestrator warns
and returns the empty SERP immediately — zero HTTP calls, zero browser
calls — and `google_web_top_words` returns the empty token list. -/
theorem c6_google_http_gate (browser : Except PyErr String)
    (parse : String → List String) :
    fetchSerpHtml false browser = Except.ok ⟨"", [googleWarning], 0, 0⟩ ∧
    googleWebTopWords false browser parse = Except.ok [] :=
  ⟨rfl, rfl⟩

/-! ## Claim C7 — fan-out runner ordering -/

theorem runSched_lookup (f : String → List String) (terms : List String) :
    ∀ (order : List Nat) (store : Nat → Option (List String)) (i : Nat),
      order.foldl (fun st j => schedWrite st j ((List.get? terms j).map f)) store i =
        if i ∈ order then (List.get? terms i).map f else store i := by
  intro order
  induction order with
  | nil => intro store i; simp
  | cons j rest ih =>
    intro store i
    rw [List.foldl_cons, ih]
    by_cases hmem : i ∈ rest
    · simp [hmem]
    · simp only [hmem, if_false, schedWrite]
      by_cases hij : i = j
      · subst hij
        simp
      · simp [hij, hmem]

/-- Claim C7: whatever order the tasks complete in, as long as every task
finished, the gathered output has the length of the input term list and
its `i`-th entry is the fetch-and-parse result of the `i`-th term. -/
theorem c7_gather_order (fetch : String → ScraperContext → String)
    (parse : String → String → ScraperContext → List String)
    (ctx : ScraperContext) (terms : List String) (order : List Nat)
    (hcover : ∀ i, i < terms.length → i ∈ order) :
    gatherScrapers fetch parse ctx terms order =
      terms.map (fun t => some (runScraperModel fetch parse ctx t)) := by
  unfold gatherScrapers runSched
  refine List.ext_getElem ?_ ?_
  · simp
  · intro i h1 h2
    simp only [List.getElem_map, List.getElem_range]
    rw [runSched_lookup]
    have hi : i < terms.length := by simpa using h1
    rw [if_pos (hcover i hi)]
    rw [List.get?_eq_getElem?, List.getElem?_eq_getElem hi]
    simp

/-- Witness for C7: five terms, completion order 2, 0, 4, 1, 3 — the
output is still in input order. -/
theorem c7_witness :
    gatherScrapers (fun t _ => t) (fun raw _ _ => [raw])
        ⟨0, 20000, 2, none, none, false, false, 1, "selenium"⟩
        ["aa", "bb", "cc", "dd", "ee"] [2, 0, 4, 1, 3] =
      [some ["aa"], some ["bb"], some ["cc"], some ["dd"], some ["ee"]] := by
  rw [c7_gather_order (fun t _ => t) (fun raw _ _ => [raw])
      ⟨0, 20000, 2, none, none, false, false, 1, "selenium"⟩
      ["aa", "bb", "cc", "dd", "ee"] [2, 0, 4, 1, 3] (by decide)]
  rfl

/-! ## Claim C9 — the context is never mutated -/

theorem heapGet_append (heap : Heap) (d : HDict) {r : Nat}
    (h : r < heap.length) :
    heapGet (heap ++ [d]) r = heapGet heap r := by
  unfold heapGet
  simp only [List.get?_eq_getElem?]
  rw [List.getElem?_append_left h]

/-- Claim C9: the header merges of the fetch helpers operate on a copy
allocated at a fresh reference; the dict the context's `headers` field
points to — and with it every field of the `ScraperContext` value — is
identical before and after the call. -/
theorem c9_context_not_mutated (heap : Heap) (ctx : ScraperContext)
    (ua : String) (uaOpt : Option String) (headersRef : Option Nat)
    (hvalid : ctx.headersRef < heap.length) :
    heapGet (googleHeaderPrep heap ctx ua).1 ctx.headersRef =
      heapGet heap ctx.headersRef ∧
    heapGet (wikiHeaderPrep heap ctx uaOpt).1 ctx.headersRef =
      heapGet heap ctx.headersRef ∧
    (∀ r, r < heap.length →
      heapGet (fetchTextHeaderPrep heap headersRef ua).1 r = heapGet heap r) ∧
    (googleHeaderPrep heap ctx ua).2 = heap.length := by
  refine ⟨?_, ?_, ?_, rfl⟩
  · exact heapGet_append heap _ hvalid
  · exact heapGet_append heap _ hvalid
  · intro r hr
    exact heapGet_append heap _ hr

/-- Witness for C9: a one-dict heap; after the google header merge the
dict at the context's headers reference is untouched. -/
theorem c9_witness :
    heapGet (googleHeaderPrep [[("K", "V")]]
        ⟨0, 20000, 2, none, none, false, false, 1, "selenium"⟩ "UA").1 0 =
      heapGet [[("K", "V")]] 0 :=
  (c9_context_not_mutated [[("K", "V")]]
      ⟨0, 20000, 2, none, none, false, false, 1, "selenium"⟩
      "UA" (some "UA") (some 0) (by decide)).1

end WebSearchSdk
